import Mathlib

/-!
Shallow embedding of the CPU-scheduling core of the `osconcepts` repository:
`Process` (src/computer/process.rs), `ProcessRecord`, `Scheduler`
(src/computer/scheduler.rs) and `MultilevelQueue` (src/computer/multilevel.rs).

Modelling conventions:
* `f32` prediction values (`estimated_remaining_time`, the τ table, the
  smoothing factor α) are embedded as `ℚ`.  Every arithmetic operation the
  code performs on them (subtracting 1.0, `α·x + (1-α)·y` with α = 0.5 on
  small integers) is exact in `f32`, so ℚ is a faithful model on the inputs
  the claims exercise, and `total_cmp` on such values coincides with the
  linear order of ℚ.
* `HashMap<u32, f32>` is embedded as an association list `List (Nat × ℚ)`;
  the code only uses `contains_key` / `insert` / `get` / `get_mut`, never
  iteration, so the representation is observation-equivalent.
* `VecDeque<ProcessRecord>` is a `List ProcessRecord` (`push_back` appends,
  `remove i` erases at index `i`).
* Rust's `Iterator::min_by_key` / `min_by` return the FIRST element among
  equal minima; `firstMinIdx` below implements exactly that.
* `&mut` state is threaded explicitly: each operation returns the new state
  together with its Rust return value.  The `.unwrap()` calls on the τ table
  (which can only panic if an id was never admitted, impossible on the paths
  the code takes) are modelled with `Option.getD 0`.
-/

set_option allowUnsafeReducibility true
attribute [local semireducible] Rat.mul Rat.add Rat.sub Rat.inv Rat.div
  Rat.ofScientific

inductive OpCode
  | Shutdown
  | Inert
deriving DecidableEq, Repr

/-- `Process` from src/computer/process.rs. -/
structure Process where
  id : Nat
  priority : Int
  time_units : Nat
  static_time_units : Nat
  code : OpCode
  affinity : Int
deriving DecidableEq, Repr

/-- `Process::full(id, time, code)`. -/
def Process.full (id : Nat) (time : Nat) (code : OpCode) : Process :=
  { id := id, priority := 0, time_units := time, static_time_units := time,
    code := code, affinity := -1 }

/-- `Process::with_prioirty` (sic, the source spells it this way). -/
def Process.with_prioirty (p : Process) (priority : Int) : Process :=
  { p with priority := priority }

inductive SchedulerAlgorithm
  | FirstComeFirstServe
  | Priority
  | PreemptivePriority
  | RoundRobin (quantum : Nat)
  | ShortestRemainingTime (alpha : ℚ)
deriving DecidableEq, Repr

/-- `INITIAL_TAU` from src/computer/scheduler.rs. -/
def INITIAL_TAU : ℚ := 10

/-- `ProcessRecord` from src/computer/scheduler.rs. -/
structure ProcessRecord where
  schedule_time : Nat
  lifetime : Int
  estimated_remaining_time : ℚ
  proc : Process
deriving DecidableEq, Repr

/-- `ProcessRecord::tick`. -/
def ProcessRecord.tick (r : ProcessRecord) : ProcessRecord :=
  { r with
    lifetime := if r.lifetime > 0 then r.lifetime - 1 else r.lifetime,
    proc := { r.proc with
      time_units := if r.proc.time_units > 0 then r.proc.time_units - 1
                    else r.proc.time_units },
    estimated_remaining_time := r.estimated_remaining_time - 1 }

/-- `ProcessRecord::tick_n`. -/
def ProcessRecord.tick_n (r : ProcessRecord) : Nat → ProcessRecord
  | 0 => r
  | n + 1 => (r.tick).tick_n n

/-- Association-list lookup, embedding `HashMap::get`. -/
def tblLookup : List (Nat × ℚ) → Nat → Option ℚ
  | [], _ => none
  | (k, v) :: rest, key => if k = key then some v else tblLookup rest key

/-- Embeds the `contains_key`/`insert` pair at the top of `schedule_inner`:
insert `v` at key `k` only when `k` is absent. -/
def tblSeed (t : List (Nat × ℚ)) (k : Nat) (v : ℚ) : List (Nat × ℚ) :=
  if (tblLookup t k).isSome then t else (k, v) :: t

/-- Embeds `get_mut(k)` followed by writing `f` of the old value; a no-op when
`k` is absent (the Rust code would panic there, but that path is unreachable:
every id reaching it was seeded at admission). -/
def tblUpdate : List (Nat × ℚ) → Nat → (ℚ → ℚ) → List (Nat × ℚ)
  | [], _, _ => []
  | (k, v) :: rest, key, f =>
      if k = key then (k, f v) :: rest else (k, v) :: tblUpdate rest key f

/-- `Scheduler` from src/computer/scheduler.rs. -/
structure Scheduler where
  scheduled : Option ProcessRecord
  queue : List ProcessRecord
  feedback : Bool
  policy : SchedulerAlgorithm
  clock : Nat
  srt_time_table : List (Nat × ℚ)
deriving DecidableEq, Repr

/-- `Scheduler::new`. -/
def Scheduler.new (policy : SchedulerAlgorithm) : Scheduler :=
  { policy := policy, scheduled := none, queue := [],
    srt_time_table := [], feedback := false, clock := 0 }

/-- `Scheduler::with_feedback`. -/
def Scheduler.with_feedback (s : Scheduler) : Scheduler :=
  { s with feedback := true }

/-- Index and value of the first element of the list minimizing `key`
(Rust's `enumerate().min_by_key(...)` / `min_by(total_cmp)`; ties go to the
earliest element). -/
def firstMin {α β : Type} [LinearOrder β] (key : α → β) :
    List α → Option (Nat × α)
  | [] => none
  | x :: xs =>
    match firstMin key xs with
    | none => some (0, x)
    | some (j, y) => if key y < key x then some (j + 1, y) else some (0, x)

/-- The index selected by `Scheduler::next`: position of the first element of
the ready queue minimizing the policy's key (`min_by_key`/`min_by` with
`total_cmp`). -/
def Scheduler.nextIdx (s : Scheduler) : Option Nat :=
  match s.policy with
  | .FirstComeFirstServe | .RoundRobin _ =>
      (firstMin (fun r => r.schedule_time) s.queue).map (fun p => p.1)
  | .Priority | .PreemptivePriority =>
      (firstMin (fun r => r.proc.priority) s.queue).map (fun p => p.1)
  | .ShortestRemainingTime _ =>
      (firstMin (fun r => r.estimated_remaining_time) s.queue).map
        (fun p => p.1)

/-- `Scheduler::next`: pop the policy-selected candidate from the ready
queue.  Returns the updated scheduler and the removed record. -/
def Scheduler.next (s : Scheduler) : Scheduler × Option ProcessRecord :=
  match s.nextIdx with
  | none => (s, none)
  | some i => ({ s with queue := s.queue.eraseIdx i }, s.queue.get? i)

/-- `Scheduler::set_scheduled_record`: overwrite τ from the table, reset the
round-robin lifetime to the quantum, install as current. -/
def Scheduler.set_scheduled_record (s : Scheduler) (record : ProcessRecord) :
    Scheduler :=
  let record :=
    { record with
      estimated_remaining_time :=
        (tblLookup s.srt_time_table record.proc.id).getD 0 }
  let record :=
    match s.policy with
    | .RoundRobin quantum => { record with lifetime := (quantum : Int) }
    | _ => record
  { s with scheduled := some record }

/-- `Scheduler::set_scheduled`. -/
def Scheduler.set_scheduled (s : Scheduler) : Option ProcessRecord → Scheduler
  | some record => s.set_scheduled_record record
  | none => { s with scheduled := none }

/-- The preemption test of `Scheduler::schedule_inner` (the two `else if`
guards), evaluated against the already-seeded table. -/
def Scheduler.preempts (s : Scheduler) (cur record : ProcessRecord) : Prop :=
  match s.policy with
  | .PreemptivePriority => record.proc.priority < cur.proc.priority
  | .ShortestRemainingTime _ =>
      cur.estimated_remaining_time >
        (tblLookup s.srt_time_table record.proc.id).getD 0
  | _ => False

instance (s : Scheduler) (cur record : ProcessRecord) :
    Decidable (s.preempts cur record) := by
  unfold Scheduler.preempts
  match s.policy with
  | .PreemptivePriority => exact inferInstance
  | .ShortestRemainingTime _ => exact inferInstance
  | .FirstComeFirstServe => exact inferInstance
  | .Priority => exact inferInstance
  | .RoundRobin _ => exact inferInstance

/-- `Scheduler::schedule_inner`.  Returns the new state and the displaced
record (only ever `some` on a feedback-mode preemption). -/
def Scheduler.schedule_inner (s0 : Scheduler) (record0 : ProcessRecord) :
    Scheduler × Option ProcessRecord :=
  let s := { s0 with
    srt_time_table := tblSeed s0.srt_time_table record0.proc.id INITIAL_TAU }
  let record := { record0 with schedule_time := s.clock }
  match s.scheduled with
  | none => (s.set_scheduled_record record, none)
  | some cur =>
    if s.preempts cur record then
      let s1 := ({ s with scheduled := none }).set_scheduled_record record
      if s.feedback then (s1, some cur)
      else ({ s1 with queue := s1.queue ++ [cur] }, none)
    else
      ({ s with queue := s.queue ++ [record], clock := s.clock + 1 }, none)

/-- `Scheduler::schedule`. -/
def Scheduler.schedule (s : Scheduler) (process : Process) :
    Scheduler × Option ProcessRecord :=
  s.schedule_inner
    { schedule_time := s.clock, lifetime := 0,
      estimated_remaining_time := INITIAL_TAU, proc := process }

/-- `Scheduler::fetch_current`: lazily retire/rotate, returning the new state
and the bumped record (round-robin expiry under feedback). The current record
itself is read off the returned state's `scheduled` field. -/
def Scheduler.fetch_current (s : Scheduler) : Scheduler × Option ProcessRecord :=
  match s.scheduled with
  | none => (s, none)
  | some cur =>
    if cur.proc.time_units = 0 then
      let p := s.next
      let s1 := p.1
      let s2 :=
        match s1.policy with
        | .ShortestRemainingTime alpha =>
            { s1 with
              srt_time_table :=
                tblUpdate s1.srt_time_table cur.proc.id
                  (fun tau =>
                    alpha * (cur.proc.static_time_units : ℚ) +
                      (1 - alpha) * tau) }
        | _ => s1
      (s2.set_scheduled p.2, none)
    else
      match s.policy with
      | .RoundRobin _ =>
        if cur.lifetime ≤ 0 then
          let p := ({ s with scheduled := none }).next
          let s2 := p.1.set_scheduled p.2
          if s2.feedback then (s2, some cur)
          else ((s2.schedule_inner cur).1, none)
        else (s, none)
      | _ => (s, none)

/-- `Scheduler::current`: advance via `fetch_current`, then read the current
record (Rust returns `&mut` into `self.scheduled`). -/
def Scheduler.current (s : Scheduler) : Scheduler × Option ProcessRecord :=
  let s1 := (s.fetch_current).1
  (s1, s1.scheduled)

/-- The driver idiom `scheduler.current_unchecked().tick_n(n)`: advance, then
tick the record held in `scheduled` in place. -/
def Scheduler.tickCurrent (s : Scheduler) (n : Nat) : Scheduler :=
  let s1 := (s.fetch_current).1
  match s1.scheduled with
  | some r => { s1 with scheduled := some (r.tick_n n) }
  | none => s1

/-- The test idiom `scheduler.current_unchecked().proc.time_units = 0`:
advance, then zero the current record's remaining time. -/
def Scheduler.finishCurrent (s : Scheduler) : Scheduler :=
  let s1 := (s.fetch_current).1
  match s1.scheduled with
  | some r =>
      { s1 with
        scheduled := some { r with proc := { r.proc with time_units := 0 } } }
  | none => s1

/-- `MultilevelQueue` from src/computer/multilevel.rs. -/
structure MultilevelQueue where
  levels : List Scheduler
deriving DecidableEq

/-- `MultilevelQueue::new`. -/
def MultilevelQueue.new : MultilevelQueue := ⟨[]⟩

/-- `MultilevelQueue::with_level`. -/
def MultilevelQueue.with_level (m : MultilevelQueue)
    (level : SchedulerAlgorithm) : MultilevelQueue :=
  ⟨m.levels ++ [(Scheduler.new level).with_feedback]⟩

/-- The `while let` cascade inside `MultilevelQueue::schedule`: schedule at
`point`; while the level returns a displaced record, advance `point` (clamped
at the last level) and re-schedule the displaced record's process there.
`fuel` bounds the loop; every run the development evaluates terminates well
within it (a level can displace at most once per re-admission). -/
def MultilevelQueue.scheduleGo :
    Nat → List Scheduler → Nat → Process → List Scheduler
  | 0, lv, _, _ => lv
  | fuel + 1, lv, point, process =>
    match lv.get? point with
    | none => lv
    | some sch =>
      let p := sch.schedule process
      let lv1 := lv.set point p.1
      match p.2 with
      | none => lv1
      | some inner =>
        let point1 := if point ≠ lv1.length - 1 then point + 1 else point
        MultilevelQueue.scheduleGo fuel lv1 point1 inner.proc

/-- `MultilevelQueue::schedule`: insert at level 0, cascading displacements
downward. -/
def MultilevelQueue.schedule (m : MultilevelQueue) (process : Process) :
    MultilevelQueue :=
  ⟨MultilevelQueue.scheduleGo (m.levels.length + 2) m.levels 0 process⟩

/-- One iteration of the demotion pass in `MultilevelQueue::current_with_key`:
run level `i`'s `fetch_current`; a bumped record's process is scheduled into
level `i+1` (or back into the last level).  The target level's `schedule`
return value is discarded, exactly as in the source. -/
def MultilevelQueue.advanceLevel (lv : List Scheduler) (i : Nat) :
    List Scheduler :=
  match lv.get? i with
  | none => lv
  | some sch =>
    let p := sch.fetch_current
    let lv1 := lv.set i p.1
    match p.2 with
    | none => lv1
    | some bumped =>
      let tgt := if i < lv1.length - 1 then i + 1 else i
      match lv1.get? tgt with
      | none => lv1
      | some tsch => lv1.set tgt (tsch.schedule bumped.proc).1

/-- The full demotion pass (`for level in 0..self.levels.len()`). -/
def MultilevelQueue.advanceAll (lv : List Scheduler) : List Scheduler :=
  (List.range lv.length).foldl MultilevelQueue.advanceLevel lv

/-- The scan loop at the end of `MultilevelQueue::current_with_key`: for each
level, `if self.levels[i].current().is_some() { return Some((i,
self.levels[i].current()?)) }`.  Both `current()` calls mutate the level, and
a `none` from the second call aborts the whole function via `?`. -/
def MultilevelQueue.scanGo (lv : List Scheduler) :
    List Nat → List Scheduler × Option (Nat × ProcessRecord)
  | [] => (lv, none)
  | i :: rest =>
    match lv.get? i with
    | none => MultilevelQueue.scanGo lv rest
    | some sch =>
      let p1 := sch.current
      let lv1 := lv.set i p1.1
      if (p1.2).isSome then
        match lv1.get? i with
        | none => (lv1, none)
        | some sch1 =>
          let p2 := sch1.current
          (lv1.set i p2.1, (p2.2).map (fun r => (i, r)))
      else MultilevelQueue.scanGo lv1 rest

/-- `MultilevelQueue::current_with_key`. -/
def MultilevelQueue.current_with_key (m : MultilevelQueue) :
    MultilevelQueue × Option (Nat × ProcessRecord) :=
  let lv := MultilevelQueue.advanceAll m.levels
  let p := MultilevelQueue.scanGo lv (List.range lv.length)
  (⟨p.1⟩, p.2)

/-- `MultilevelQueue::current`. -/
def MultilevelQueue.current (m : MultilevelQueue) :
    MultilevelQueue × Option ProcessRecord :=
  let p := m.current_with_key
  (p.1, (p.2).map (fun x => x.2))

/-- The driver idiom `queue.current_unchecked().tick_n(n)`: advance via
`current_with_key`, then tick the reported level's current record in place
(the Rust call returns `&mut` into that level's `scheduled`). -/
def MultilevelQueue.tickCurrent (m : MultilevelQueue) (n : Nat) :
    MultilevelQueue :=
  let p := m.current_with_key
  match p.2 with
  | none => p.1
  | some (i, _) =>
    match (p.1).levels.get? i with
    | none => p.1
    | some sch =>
      match sch.scheduled with
      | none => p.1
      | some r =>
        ⟨(p.1).levels.set i { sch with scheduled := some (r.tick_n n) }⟩

/-! ### Concrete scenarios -/

/-- The three-level feedback queue RR(2), RR(4), FCFS of the multilevel
tests. -/
def c1m0 : MultilevelQueue :=
  ((MultilevelQueue.new.with_level (.RoundRobin 2)).with_level
      (.RoundRobin 4)).with_level .FirstComeFirstServe

/-- That queue after admitting one process (id 0) with 8 time units. -/
def c1m1 : MultilevelQueue := c1m0.schedule (Process.full 0 8 .Inert)

/-- C1: with levels RR(2), RR(4), FCFS and one admitted process of 8 time
units, `current_with_key` first reports the process at level 0; after ticking
the current record 2 times it is reported (same id) at level 1; after 4 more
ticks at level 2; after 2 more ticks `current` returns `none`. -/
theorem multilevel_demotion_chain :
    (c1m1.current_with_key).2.map (fun x => (x.1, x.2.proc.id)) = some (0, 0) ∧
    ((c1m1.tickCurrent 2).current_with_key).2.map (fun x => (x.1, x.2.proc.id))
      = some (1, 0) ∧
    (((c1m1.tickCurrent 2).tickCurrent 4).current_with_key).2.map
      (fun x => (x.1, x.2.proc.id)) = some (2, 0) ∧
    ((((c1m1.tickCurrent 2).tickCurrent 4).tickCurrent 2).current).2 = none := by
  decide

/-! ### C2: preemption under ShortestRemainingTime -/

/-- C2: with policy ShortestRemainingTime and a current record, `schedule p`
preempts (p becomes current, with τ read from the seeded table) iff the
current record's live `estimated_remaining_time` strictly exceeds the table's
τ entry for `p.id` (the entry seeded with the default 10.0 first if absent);
otherwise the incumbent stays current and `p` is appended to the ready set. -/
theorem srt_preemption_iff (s : Scheduler) (a : ℚ) (cur : ProcessRecord)
    (p : Process)
    (hpol : s.policy = .ShortestRemainingTime a)
    (hcur : s.scheduled = some cur) :
    (cur.estimated_remaining_time >
        (tblLookup (tblSeed s.srt_time_table p.id INITIAL_TAU) p.id).getD 0 →
      ((s.schedule p).1).scheduled = some
        { schedule_time := s.clock, lifetime := 0,
          estimated_remaining_time :=
            (tblLookup (tblSeed s.srt_time_table p.id INITIAL_TAU) p.id).getD 0,
          proc := p }) ∧
    (¬ cur.estimated_remaining_time >
        (tblLookup (tblSeed s.srt_time_table p.id INITIAL_TAU) p.id).getD 0 →
      ((s.schedule p).1).scheduled = some cur ∧
      ((s.schedule p).1).queue = s.queue ++
        [{ schedule_time := s.clock, lifetime := 0,
           estimated_remaining_time := INITIAL_TAU, proc := p }]) := by
  by_cases hco : cur.estimated_remaining_time >
      (tblLookup (tblSeed s.srt_time_table p.id INITIAL_TAU) p.id).getD 0
  · constructor
    · intro _
      simp only [Scheduler.schedule, Scheduler.schedule_inner, hcur, hpol,
        Scheduler.set_scheduled_record]
      rw [if_pos]
      · split <;> simp [hpol]
      · simpa [Scheduler.preempts, hpol] using hco
    · intro h
      exact absurd hco h
  · constructor
    · intro h
      exact absurd h hco
    · intro _
      simp only [Scheduler.schedule, Scheduler.schedule_inner, hcur, hpol,
        Scheduler.set_scheduled_record]
      rw [if_neg]
      · simp
      · simpa [Scheduler.preempts, hpol] using hco

/-- The SRT scheduler of the preemption test: id 0 ran 3 units to completion
(τ₀ learned to 6.5), then id 1 was admitted and is current with live τ 10. -/
def c2s : Scheduler :=
  let s1 := ((Scheduler.new (.ShortestRemainingTime (1/2))).schedule
    (Process.full 0 3 .Inert)).1
  let s2 := s1.tickCurrent 3
  let s3 := (s2.current).1
  ((s3.schedule (Process.full 1 3 .Inert)).1)

/-- The record current in `c2s` (process id 1, freshly installed). -/
def c2cur : ProcessRecord :=
  { schedule_time := 0, lifetime := 0, estimated_remaining_time := 10,
    proc := Process.full 1 3 .Inert }

/-- Witness for C2: re-admitting id 0 (table τ = 6.5 < live τ 10 of the
incumbent) immediately makes it current. -/
theorem srt_preemption_iff_witness :
    ((c2s.schedule (Process.full 0 3 .Inert)).1).scheduled = some
      { schedule_time := c2s.clock, lifetime := 0,
        estimated_remaining_time :=
          (tblLookup (tblSeed c2s.srt_time_table 0 INITIAL_TAU) 0).getD 0,
        proc := Process.full 0 3 .Inert } :=
  (srt_preemption_iff c2s (1/2) c2cur (Process.full 0 3 .Inert)
    (by decide) (by decide)).1 (by decide)

/-! ### C4: preemption under PreemptivePriority -/

/-- C4: with policy PreemptivePriority and a current record, `schedule p`
makes `p` current iff `p.priority` is strictly less than the current record's
priority (equal priorities never preempt).  On preemption with
`feedback = true` the displaced incumbent is returned as `Some` and the ready
set is untouched; with `feedback = false` it is pushed to the back of the
ready set and `None` is returned. -/
theorem preemptive_priority_spec (s : Scheduler) (cur : ProcessRecord)
    (p : Process)
    (hpol : s.policy = .PreemptivePriority)
    (hcur : s.scheduled = some cur) :
    (p.priority < cur.proc.priority →
      ((s.schedule p).1).scheduled = some
        { schedule_time := s.clock, lifetime := 0,
          estimated_remaining_time :=
            (tblLookup (tblSeed s.srt_time_table p.id INITIAL_TAU) p.id).getD 0,
          proc := p } ∧
      (s.feedback = true →
        (s.schedule p).2 = some cur ∧ ((s.schedule p).1).queue = s.queue) ∧
      (s.feedback = false →
        (s.schedule p).2 = none ∧
        ((s.schedule p).1).queue = s.queue ++ [cur])) ∧
    (¬ p.priority < cur.proc.priority →
      ((s.schedule p).1).scheduled = some cur ∧ (s.schedule p).2 = none) := by
  by_cases hco : p.priority < cur.proc.priority
  · refine ⟨fun _ => ?_, fun h => absurd hco h⟩
    simp only [Scheduler.schedule, Scheduler.schedule_inner, hcur, hpol,
      Scheduler.set_scheduled_record]
    rw [if_pos]
    · cases hf : s.feedback <;> simp [hf, hpol]
    · simpa [Scheduler.preempts, hpol] using hco
  · refine ⟨fun h => absurd h hco, fun _ => ?_⟩
    simp only [Scheduler.schedule, Scheduler.schedule_inner, hcur, hpol]
    rw [if_neg]
    · simp
    · simpa [Scheduler.preempts, hpol] using hco

/-- A PreemptivePriority scheduler whose current record is id 0 with
priority 5. -/
def c4s : Scheduler :=
  ((Scheduler.new .PreemptivePriority).schedule
    ((Process.full 0 1 .Inert).with_prioirty 5)).1

/-- The record current in `c4s`. -/
def c4cur : ProcessRecord :=
  { schedule_time := 0, lifetime := 0, estimated_remaining_time := 10,
    proc := (Process.full 0 1 .Inert).with_prioirty 5 }

/-- Witness for C4: admitting id 1 with priority −1 preempts the priority-5
incumbent, and with `feedback = false` nothing is returned. -/
theorem preemptive_priority_spec_witness :
    ((c4s.schedule ((Process.full 1 1 .Inert).with_prioirty (-1))).1).scheduled
      = some
        { schedule_time := c4s.clock, lifetime := 0,
          estimated_remaining_time :=
            (tblLookup (tblSeed c4s.srt_time_table 1 INITIAL_TAU) 1).getD 0,
          proc := (Process.full 1 1 .Inert).with_prioirty (-1) } ∧
    (c4s.schedule ((Process.full 1 1 .Inert).with_prioirty (-1))).2 = none :=
  have h := preemptive_priority_spec c4s c4cur
    ((Process.full 1 1 .Inert).with_prioirty (-1)) (by decide) (by decide)
  ⟨(h.1 (by decide)).1, ((h.1 (by decide)).2.2 (by decide)).1⟩

/-! ### C5: return value of `schedule` -/

/-- A passing preemption test pins down the policy: either PreemptivePriority
with a strictly more urgent newcomer, or ShortestRemainingTime with the
incumbent's live τ above the newcomer's table τ. -/
theorem preempts_policy (s : Scheduler) (cur r : ProcessRecord)
    (h : s.preempts cur r) :
    (s.policy = .PreemptivePriority ∧ r.proc.priority < cur.proc.priority) ∨
    (∃ a, s.policy = .ShortestRemainingTime a ∧
      cur.estimated_remaining_time >
        (tblLookup s.srt_time_table r.proc.id).getD 0) := by
  unfold Scheduler.preempts at h
  cases hpol : s.policy <;> rw [hpol] at h <;> simp_all

/-- C5: `schedule` returns `None` in every case except when `feedback` is
true and the admission preempts the incumbent under PreemptivePriority or
ShortestRemainingTime; in particular it always returns `None` when
`feedback = false` and under FirstComeFirstServe, Priority and RoundRobin. -/
theorem schedule_returns_none_unless_feedback_preemption
    (s : Scheduler) (p : Process) :
    (s.feedback = false → (s.schedule p).2 = none) ∧
    ((s.policy = .FirstComeFirstServe ∨ s.policy = .Priority ∨
        (∃ q, s.policy = .RoundRobin q)) → (s.schedule p).2 = none) ∧
    (∀ r, (s.schedule p).2 = some r →
      s.feedback = true ∧ s.scheduled = some r ∧
      ((s.policy = .PreemptivePriority ∧ p.priority < r.proc.priority) ∨
       (∃ a, s.policy = .ShortestRemainingTime a ∧
         r.estimated_remaining_time >
           (tblLookup (tblSeed s.srt_time_table p.id INITIAL_TAU)
             p.id).getD 0))) := by
  simp only [Scheduler.schedule, Scheduler.schedule_inner]
  cases hs : s.scheduled with
  | none => simp
  | some cur =>
    simp only []
    split_ifs with h1 h2
    · refine ⟨fun hf => (by rw [hf] at h2; cases h2), fun hpols => ?_, ?_⟩
      · rcases preempts_policy _ _ _ h1 with ⟨hp, _⟩ | ⟨a, hp, _⟩ <;>
          simp only [] at hp <;>
          rcases hpols with h | h | ⟨q, h⟩ <;> rw [h] at hp <;> cases hp
      · intro r hr
        simp only [Option.some.injEq] at hr
        subst hr
        refine ⟨h2, rfl, ?_⟩
        have := preempts_policy _ _ _ h1
        simpa using this
    · simp
    · simp

/-- Witness for C5: on a fresh non-feedback FCFS scheduler, `schedule`
returns `None`. -/
theorem schedule_returns_none_witness :
    ((Scheduler.new .FirstComeFirstServe).schedule
      (Process.full 0 1 .Inert)).2 = none :=
  (schedule_returns_none_unless_feedback_preemption
    (Scheduler.new .FirstComeFirstServe) (Process.full 0 1 .Inert)).1
    (by decide)

/-! ### C3: SRT burst-length learning on retirement -/

/-- Updating a table key rewrites exactly that entry. -/
theorem tblLookup_tblUpdate (t : List (Nat × ℚ)) (k : Nat) (f : ℚ → ℚ) :
    tblLookup (tblUpdate t k f) k = (tblLookup t k).map f := by
  induction t with
  | nil => rfl
  | cons hd tl ih =>
    obtain ⟨k', v⟩ := hd
    by_cases hk : k' = k <;> simp [tblUpdate, tblLookup, hk, ih]

/-- `set_scheduled` never touches the prediction table. -/
theorem set_scheduled_srt_time_table (s : Scheduler)
    (o : Option ProcessRecord) :
    ((s.set_scheduled o)).srt_time_table = s.srt_time_table := by
  cases o <;> rfl

/-- `next` only removes from the ready queue; every other field is kept. -/
theorem next_fields (s : Scheduler) :
    ((s.next).1).srt_time_table = s.srt_time_table ∧
    ((s.next).1).policy = s.policy ∧
    ((s.next).1).scheduled = s.scheduled ∧
    ((s.next).1).feedback = s.feedback ∧
    ((s.next).1).clock = s.clock := by
  unfold Scheduler.next
  split <;> simp

/-- C3: under ShortestRemainingTime(α), when the retirement step runs with
the current record's `time_units` at 0, the prediction-table entry for the
finishing process becomes `α·static_time_units + (1−α)·old_τ`, and the
replacement (when the ready queue yields one) is installed with its τ read
from the already-updated table. -/
theorem srt_learning (s : Scheduler) (a : ℚ) (cur : ProcessRecord) (told : ℚ)
    (hpol : s.policy = .ShortestRemainingTime a)
    (hcur : s.scheduled = some cur)
    (htu : cur.proc.time_units = 0)
    (htbl : tblLookup s.srt_time_table cur.proc.id = some told) :
    tblLookup ((s.fetch_current).1).srt_time_table cur.proc.id
      = some (a * (cur.proc.static_time_units : ℚ) + (1 - a) * told) ∧
    (∀ nr, (s.next).2 = some nr →
      ((s.fetch_current).1).scheduled = some
        { schedule_time := nr.schedule_time, lifetime := nr.lifetime,
          estimated_remaining_time :=
            (tblLookup ((s.fetch_current).1).srt_time_table nr.proc.id).getD 0,
          proc := nr.proc }) := by
  obtain ⟨ht, hp, hs2, hf, hc⟩ := next_fields s
  simp only [Scheduler.fetch_current, hcur, htu, if_true]
  rw [hp, hpol]
  simp only []
  constructor
  · rw [set_scheduled_srt_time_table]
    simp only [ht]
    rw [tblLookup_tblUpdate, htbl]
    rfl
  · intro nr hnr
    rw [hnr]
    simp [Scheduler.set_scheduled, Scheduler.set_scheduled_record,
      set_scheduled_srt_time_table]

/-- The SRT(0.5) scheduler after admitting id 0 with 3 time units and ticking
it to completion (current has `time_units = 0`, table still at the seed 10). -/
def c3s : Scheduler :=
  (((Scheduler.new (.ShortestRemainingTime (1/2))).schedule
    (Process.full 0 3 .Inert)).1).tickCurrent 3

/-- The record current in `c3s`. -/
def c3cur : ProcessRecord :=
  { schedule_time := 0, lifetime := 0, estimated_remaining_time := 7,
    proc := { id := 0, priority := 0, time_units := 0,
              static_time_units := 3, code := .Inert, affinity := -1 } }

/-- Witness for C3: the finishing id-0 entry becomes
0.5·3 + 0.5·10 = 6.5 and survives re-admission of id 0. -/
theorem srt_learning_witness :
    tblLookup ((c3s.fetch_current).1).srt_time_table 0
      = some ((1/2) * ((3 : Nat) : ℚ) + (1 - 1/2) * 10) ∧
    ((1/2) * ((3 : Nat) : ℚ) + (1 - 1/2) * 10) = 6.5 ∧
    tblLookup ((((c3s.fetch_current).1).schedule
      (Process.full 0 3 .Inert)).1).srt_time_table 0 = some 6.5 :=
  ⟨(srt_learning c3s (1/2) c3cur 10 (by decide) (by decide) (by decide)
      (by decide)).1,
   by decide, by decide⟩

/-! ### C9: round-robin quantum expiry with an empty ready set -/

/-- C9: under RoundRobin(q) with `feedback = false` and an empty ready set,
when the current record's lifetime has reached 0 while `time_units` is still
positive, the next `current()` re-installs the same process as current with
lifetime reset to `q` and returns it; nothing is bumped to the caller and the
ready set stays empty. -/
theorem rr_idle_requeue (s : Scheduler) (q : Nat) (cur : ProcessRecord)
    (hpol : s.policy = .RoundRobin q)
    (hfb : s.feedback = false)
    (hq : s.queue = [])
    (hcur : s.scheduled = some cur)
    (hlt : cur.lifetime ≤ 0)
    (htu : cur.proc.time_units ≠ 0) :
    (s.current).2 = some
      { schedule_time := s.clock, lifetime := (q : Int),
        estimated_remaining_time :=
          (tblLookup (tblSeed s.srt_time_table cur.proc.id INITIAL_TAU)
            cur.proc.id).getD 0,
        proc := cur.proc } ∧
    (s.fetch_current).2 = none ∧
    ((s.fetch_current).1).queue = [] := by
  simp only [Scheduler.current, Scheduler.fetch_current, hcur, htu, if_false,
    hpol]
  rw [if_pos hlt]
  simp only [Scheduler.next, Scheduler.nextIdx, hpol, hq, firstMin,
    Scheduler.set_scheduled, hfb, Option.map]
  simp only [Scheduler.schedule_inner, Scheduler.set_scheduled_record, hpol]
  simp [Scheduler.preempts]

/-- A lone RoundRobin(2) process ticked through its whole quantum with an
empty ready set. -/
def c9s : Scheduler :=
  (((Scheduler.new (.RoundRobin 2)).schedule (Process.full 0 8 .Inert)).1
    ).tickCurrent 2

/-- The record current in `c9s`: quantum used up, 6 units left. -/
def c9cur : ProcessRecord :=
  { schedule_time := 0, lifetime := 0, estimated_remaining_time := 8,
    proc := { id := 0, priority := 0, time_units := 6,
              static_time_units := 8, code := .Inert, affinity := -1 } }

/-- Witness for C9 on `c9s`. -/
theorem rr_idle_requeue_witness :
    (c9s.current).2 = some
      { schedule_time := c9s.clock, lifetime := (2 : Int),
        estimated_remaining_time :=
          (tblLookup (tblSeed c9s.srt_time_table 0 INITIAL_TAU) 0).getD 0,
        proc := c9cur.proc } ∧
    (c9s.fetch_current).2 = none ∧
    ((c9s.fetch_current).1).queue = [] :=
  rr_idle_requeue c9s 2 c9cur (by decide) (by decide) (by decide) (by decide)
    (by decide) (by decide)

/-! ### C7: non-preemptive Priority ordering -/

/-- On a nonempty list, `firstMin` always selects something. -/
theorem firstMin_cons_isSome {α β : Type} [LinearOrder β] (key : α → β)
    (x : α) (xs : List α) : (firstMin key (x :: xs)).isSome := by
  rw [firstMin]
  cases firstMin key xs with
  | none => rfl
  | some p =>
    obtain ⟨j, y⟩ := p
    by_cases hk : key y < key x <;> simp [hk]

/-- The pair selected by `firstMin` is the element at the reported index and
its key is minimal over the list. -/
theorem firstMin_spec {α β : Type} [LinearOrder β] (key : α → β)
    (l : List α) (j : Nat) (x : α) (h : firstMin key l = some (j, x)) :
    l.get? j = some x ∧ ∀ y ∈ l, key x ≤ key y := by
  induction l generalizing j x with
  | nil => cases h
  | cons hd tl ih =>
    rw [firstMin] at h
    cases hfm : firstMin key tl with
    | none =>
      rw [hfm] at h
      simp only [Option.some.injEq, Prod.mk.injEq] at h
      obtain ⟨rfl, rfl⟩ := h
      refine ⟨rfl, ?_⟩
      intro y hy
      rcases List.mem_cons.mp hy with rfl | hy'
      · exact le_refl _
      · cases tl with
        | nil => cases hy'
        | cons a b =>
          have hsome := firstMin_cons_isSome key a b
          rw [hfm] at hsome
          cases hsome
    | some p =>
      obtain ⟨j', y'⟩ := p
      rw [hfm] at h
      replace h : (if key y' < key hd then some (j' + 1, y')
          else some (0, hd)) = some (j, x) := h
      obtain ⟨hget, hmin⟩ := ih j' y' hfm
      by_cases hk : key y' < key hd
      · rw [if_pos hk] at h
        simp only [Option.some.injEq, Prod.mk.injEq] at h
        obtain ⟨h1, h2⟩ := h
        subst h1
        subst h2
        refine ⟨by simpa using hget, ?_⟩
        intro y hy
        rcases List.mem_cons.mp hy with rfl | hy'
        · exact le_of_lt hk
        · exact hmin y hy'
      · rw [if_neg hk] at h
        simp only [Option.some.injEq, Prod.mk.injEq] at h
        obtain ⟨h1, h2⟩ := h
        subst h1
        subst h2
        refine ⟨rfl, ?_⟩
        intro y hy
        rcases List.mem_cons.mp hy with rfl | hy'
        · exact le_refl _
        · calc key hd ≤ key y' := not_lt.mp hk
            _ ≤ key y := hmin y hy'

/-- Priority scheduler after admitting id 0 (priority 5), id 1 (priority 0),
id 4 (priority −20) and id 2 (priority 0), each with 1 time unit. -/
def c7s0 : Scheduler :=
  let s := Scheduler.new .Priority
  let s := (s.schedule ((Process.full 0 1 .Inert).with_prioirty 5)).1
  let s := (s.schedule (Process.full 1 1 .Inert)).1
  let s := (s.schedule ((Process.full 4 1 .Inert).with_prioirty (-20))).1
  (s.schedule (Process.full 2 1 .Inert)).1

/-- `c7s0` after its current record (id 0) is finished. -/
def c7s1 : Scheduler := ((c7s0.current).1).finishCurrent

/-- `c7s1` after its current record (id 4) is finished. -/
def c7s2 : Scheduler := ((c7s1.current).1).finishCurrent

/-- `c7s2` after its current record (id 1) is finished. -/
def c7s3 : Scheduler := ((c7s2.current).1).finishCurrent

/-- C7: non-preemptive Priority dispatches the scenario above in the order
id 0, id 4, id 1, leaving id 2 as the next selectable candidate; and in
general the candidate popped by `next` under Priority has minimal priority
value over the ready set, independent of admission order. -/
theorem priority_dispatch_order :
    ((c7s0.current).2.map (fun r => r.proc.id) = some 0) ∧
    ((c7s1.current).2.map (fun r => r.proc.id) = some 4) ∧
    ((c7s2.current).2.map (fun r => r.proc.id) = some 1) ∧
    ((c7s3.next).2.map (fun r => r.proc.id) = some 2) ∧
    (∀ s : Scheduler, s.policy = .Priority → ∀ r, (s.next).2 = some r →
      r ∈ s.queue ∧ ∀ x ∈ s.queue, r.proc.priority ≤ x.proc.priority) := by
  refine ⟨by decide, by decide, by decide, by decide, ?_⟩
  intro s hpol r h
  unfold Scheduler.next at h
  cases hni : s.nextIdx with
  | none => rw [hni] at h; cases h
  | some i =>
    rw [hni] at h
    simp only [] at h
    unfold Scheduler.nextIdx at hni
    rw [hpol] at hni
    simp only [Option.map_eq_some'] at hni
    obtain ⟨⟨j, y⟩, hfm, hj⟩ := hni
    subst hj
    obtain ⟨hget, hmin⟩ := firstMin_spec _ _ _ _ hfm
    rw [hget] at h
    simp only [Option.some.injEq] at h
    subst h
    exact ⟨List.get?_mem hget, hmin⟩

/-- The ready record left in `c7s3` (id 2). -/
def c7rec : ProcessRecord :=
  { schedule_time := 2, lifetime := 0, estimated_remaining_time := 10,
    proc := Process.full 2 1 .Inert }

/-- Witness for C7's general clause at `c7s3`. -/
theorem priority_dispatch_order_witness :
    c7rec ∈ c7s3.queue ∧
    ∀ x ∈ c7s3.queue, c7rec.proc.priority ≤ x.proc.priority :=
  (priority_dispatch_order.2.2.2.2) c7s3 (by decide) c7rec (by decide)

/-! ### C6: insertion clock and schedule_time stamping -/

/-- Driver operations on a single scheduler: admission, ticking the current
record, and a (state-advancing) `current` read. -/
inductive SchedOp
  | arrive (p : Process)
  | tick (n : Nat)
  | read

/-- One driver operation. -/
def Scheduler.step (s : Scheduler) : SchedOp → Scheduler
  | .arrive p => (s.schedule p).1
  | .tick n => s.tickCurrent n
  | .read => (s.fetch_current).1

/-- A finite trace of driver operations. -/
def Scheduler.run (s : Scheduler) : List SchedOp → Scheduler
  | [] => s
  | op :: ops => (s.step op).run ops

/-- `set_scheduled` keeps the insertion clock. -/
theorem set_scheduled_clock (s : Scheduler) (o : Option ProcessRecord) :
    ((s.set_scheduled o)).clock = s.clock := by
  cases o <;> rfl

/-- Installing a record as current keeps its process and stamp, re-reads τ
from the table and resets the lifetime only under round-robin. -/
theorem set_scheduled_record_shape (s : Scheduler) (r : ProcessRecord) :
    ∃ r', (s.set_scheduled_record r).scheduled = some r' ∧
      r'.proc = r.proc ∧ r'.schedule_time = r.schedule_time ∧
      r'.estimated_remaining_time =
        (tblLookup s.srt_time_table r.proc.id).getD 0 ∧
      (∀ q, s.policy = .RoundRobin q → r'.lifetime = (q : Int)) ∧
      ((∀ q, s.policy ≠ .RoundRobin q) → r'.lifetime = r.lifetime) := by
  unfold Scheduler.set_scheduled_record
  cases hpol : s.policy <;>
    exact ⟨_, rfl, rfl, rfl, rfl, by simp [hpol], by simp [hpol]⟩

/-- Admission never decreases the insertion clock. -/
theorem clock_le_schedule_inner (s : Scheduler) (r : ProcessRecord) :
    s.clock ≤ ((s.schedule_inner r).1).clock := by
  unfold Scheduler.schedule_inner
  cases s.scheduled with
  | none => simp [Scheduler.set_scheduled_record]
  | some cur =>
    simp only []
    split_ifs <;> simp [Scheduler.set_scheduled_record]

/-- Popping a candidate and installing it keeps the clock. -/
theorem next_set_scheduled_clock (t : Scheduler) :
    (((t.next).1).set_scheduled (t.next).2).clock = t.clock := by
  rw [set_scheduled_clock]
  exact (next_fields t).2.2.2.2

/-- The retirement step never decreases the insertion clock. -/
theorem clock_le_fetch_current (s : Scheduler) :
    s.clock ≤ ((s.fetch_current).1).clock := by
  unfold Scheduler.fetch_current
  cases s.scheduled with
  | none => simp
  | some cur =>
    simp only []
    by_cases h1 : cur.proc.time_units = 0
    · rw [if_pos h1]
      obtain ⟨-, -, -, -, hc⟩ := next_fields s
      cases hpol : ((s.next).1).policy <;> simp [set_scheduled_clock, hc]
    · rw [if_neg h1]
      cases hpol : s.policy <;> simp only [] <;> try exact le_refl _
      rename_i q
      by_cases h2 : cur.lifetime ≤ 0
      · rw [if_pos h2]
        split_ifs with h3
        · exact le_of_eq (next_set_scheduled_clock
            { s with scheduled := none, policy := .RoundRobin q }).symm
        · exact le_trans
            (le_of_eq (next_set_scheduled_clock
              { s with scheduled := none, policy := .RoundRobin q }).symm)
            (clock_le_schedule_inner _ cur)
      · rw [if_neg h2]

/-- Ticking the current record does not change the clock further. -/
theorem tickCurrent_clock (s : Scheduler) (n : Nat) :
    (s.tickCurrent n).clock = ((s.fetch_current).1).clock := by
  unfold Scheduler.tickCurrent
  cases h : ((s.fetch_current).1).scheduled <;> simp [h]

/-- Every driver operation is clock-monotone. -/
theorem clock_le_step (s : Scheduler) (op : SchedOp) :
    s.clock ≤ (s.step op).clock := by
  cases op with
  | arrive p => exact clock_le_schedule_inner s _
  | tick n => rw [Scheduler.step, tickCurrent_clock]; exact clock_le_fetch_current s
  | read => exact clock_le_fetch_current s

/-- The insertion clock is monotone along every trace. -/
theorem clock_le_run (s : Scheduler) (ops : List SchedOp) :
    s.clock ≤ (s.run ops).clock := by
  induction ops generalizing s with
  | nil => exact le_refl _
  | cons op rest ih => exact le_trans (clock_le_step s op) (ih (s.step op))

/-- Installing a record as current keeps the insertion clock. -/
theorem set_scheduled_record_clock (s : Scheduler) (r : ProcessRecord) :
    (s.set_scheduled_record r).clock = s.clock := rfl

/-- C6: every admission stamps the new record with the current clock value;
a non-preempting admission onto a busy scheduler appends the stamped record
to the ready set and advances the clock by exactly one (an admission onto an
idle scheduler leaves it unchanged); and the clock never decreases along any
trace, so no later admission carries a smaller `schedule_time`. -/
theorem schedule_time_stamping (s : Scheduler) (p : Process) :
    (∃ rec : ProcessRecord, rec.proc = p ∧ rec.schedule_time = s.clock ∧
      (((s.schedule p).1).scheduled = some rec ∨
       ((s.schedule p).1).queue = s.queue ++ [rec])) ∧
    (∀ cur, s.scheduled = some cur →
      ¬ ({ s with
            scheduled := some cur,
            srt_time_table :=
              tblSeed s.srt_time_table p.id INITIAL_TAU } : Scheduler).preempts
          cur { schedule_time := s.clock, lifetime := 0,
                estimated_remaining_time := INITIAL_TAU, proc := p } →
      ((s.schedule p).1).clock = s.clock + 1 ∧
      ((s.schedule p).1).queue = s.queue ++
        [{ schedule_time := s.clock, lifetime := 0,
           estimated_remaining_time := INITIAL_TAU, proc := p }]) ∧
    (s.scheduled = none → ((s.schedule p).1).clock = s.clock) ∧
    (∀ ops : List SchedOp, s.clock ≤ (s.run ops).clock) := by
  refine ⟨?_, ?_, ?_, clock_le_run s⟩
  · simp only [Scheduler.schedule, Scheduler.schedule_inner]
    cases hs : s.scheduled with
    | none =>
      obtain ⟨r', hsch, hproc, hst, -⟩ := set_scheduled_record_shape
        { s with srt_time_table := tblSeed s.srt_time_table p.id INITIAL_TAU }
        { schedule_time := s.clock, lifetime := 0,
          estimated_remaining_time := INITIAL_TAU, proc := p }
      exact ⟨r', hproc, hst, Or.inl hsch⟩
    | some cur =>
      simp only []
      split_ifs with h1 h2
      · obtain ⟨r', hsch, hproc, hst, -⟩ := set_scheduled_record_shape
          { s with
            scheduled := none,
            srt_time_table := tblSeed s.srt_time_table p.id INITIAL_TAU }
          { schedule_time := s.clock, lifetime := 0,
            estimated_remaining_time := INITIAL_TAU, proc := p }
        exact ⟨r', hproc, hst, Or.inl hsch⟩
      · obtain ⟨r', hsch, hproc, hst, -⟩ := set_scheduled_record_shape
          { s with
            scheduled := none,
            srt_time_table := tblSeed s.srt_time_table p.id INITIAL_TAU }
          { schedule_time := s.clock, lifetime := 0,
            estimated_remaining_time := INITIAL_TAU, proc := p }
        exact ⟨r', hproc, hst, Or.inl hsch⟩
      · exact ⟨_, rfl, rfl, Or.inr rfl⟩
  · intro cur hcur hno
    simp only [Scheduler.schedule, Scheduler.schedule_inner, hcur]
    rw [if_neg hno]
    simp
  · intro hs
    simp only [Scheduler.schedule, Scheduler.schedule_inner, hs]
    exact set_scheduled_record_clock _ _

/-- A busy FCFS scheduler (id 0 current, clock 0). -/
def c6s : Scheduler :=
  ((Scheduler.new .FirstComeFirstServe).schedule (Process.full 0 2 .Inert)).1

/-- The record current in `c6s`. -/
def c6rec : ProcessRecord :=
  { schedule_time := 0, lifetime := 0, estimated_remaining_time := 10,
    proc := Process.full 0 2 .Inert }

/-- Witness for C6: a second admission is stamped with clock 0 and bumps the
clock to 1. -/
theorem schedule_time_stamping_witness :
    ((c6s.schedule (Process.full 1 2 .Inert)).1).clock = c6s.clock + 1 ∧
    ((c6s.schedule (Process.full 1 2 .Inert)).1).queue = c6s.queue ++
      [{ schedule_time := c6s.clock, lifetime := 0,
         estimated_remaining_time := INITIAL_TAU,
         proc := Process.full 1 2 .Inert }] :=
  (schedule_time_stamping c6s (Process.full 1 2 .Inert)).2.1
    c6rec (by decide) (by decide)

/-! ### C8: conservation of processes along traces -/

/-- Process ids admitted in a trace, in order. -/
def arrivedIds : List SchedOp → List Nat
  | [] => []
  | .arrive p :: rest => p.id :: arrivedIds rest
  | _ :: rest => arrivedIds rest

/-- Number of admissions in a trace. -/
def arriveCount : List SchedOp → Nat
  | [] => 0
  | .arrive _ :: rest => 1 + arriveCount rest
  | _ :: rest => arriveCount rest

/-- 1 when executing `op` on `s` retires the current record with
`time_units = 0` (the first branch of `fetch_current`, reached from a tick or
a read, never from an admission), else 0. -/
def retireWeight (s : Scheduler) (op : SchedOp) : Nat :=
  match op with
  | .arrive _ => 0
  | _ =>
    match s.scheduled with
    | some c => if c.proc.time_units = 0 then 1 else 0
    | none => 0

/-- 1 for an admission, else 0. -/
def arriveWeight : SchedOp → Nat
  | .arrive _ => 1
  | _ => 0

/-- Number of records that transition out of "current" with zero remaining
`time_units` while a trace executes. -/
def countRetired (s : Scheduler) : List SchedOp → Nat
  | [] => 0
  | op :: rest => retireWeight s op + countRetired (s.step op) rest

/-- Number of records resident in a scheduler (ready set plus current). -/
def sizeInside (s : Scheduler) : Nat :=
  s.queue.length + (if s.scheduled.isSome then 1 else 0)

/-- A trace that admits the same id twice and drives both records to
completion. -/
def c8ops : List SchedOp :=
  [.arrive (Process.full 0 1 .Inert), .arrive (Process.full 0 1 .Inert),
   .tick 1, .read, .tick 1, .read]

/-- C8 counterexample: admitting id 0 twice and running both admissions to
completion (the scheduler ends empty) retires 2 records with zero
`time_units`, while only 1 distinct process id was ever admitted. -/
theorem distinct_ids_vs_retired_counterexample :
    (arrivedIds c8ops).dedup.length = 1 ∧
    countRetired (Scheduler.new .FirstComeFirstServe) c8ops = 2 ∧
    ((Scheduler.new .FirstComeFirstServe).run c8ops).scheduled = none ∧
    ((Scheduler.new .FirstComeFirstServe).run c8ops).queue = [] ∧
    (1 : Nat) ≠ 2 := by decide

/-- A selected index points at an element of the ready queue. -/
theorem nextIdx_get (s : Scheduler) (i : Nat) (h : s.nextIdx = some i) :
    ∃ x, s.queue.get? i = some x := by
  unfold Scheduler.nextIdx at h
  cases hpol : s.policy <;> rw [hpol] at h <;>
    simp only [Option.map_eq_some'] at h <;>
    obtain ⟨⟨j, y⟩, hfm, rfl⟩ := h <;>
    exact ⟨y, (firstMin_spec _ _ _ _ hfm).1⟩

/-- `next` pops exactly one element when it yields one, and leaves the
current slot alone. -/
theorem next_size (s : Scheduler) :
    ((s.next).1).queue.length +
      (if ((s.next).2).isSome then 1 else 0) = s.queue.length ∧
    ((s.next).1).scheduled = s.scheduled := by
  unfold Scheduler.next
  cases hidx : s.nextIdx with
  | none => simp
  | some i =>
    obtain ⟨x, hx⟩ := nextIdx_get s i hidx
    have hlt : i < s.queue.length := List.get?_eq_some.mp hx |>.1
    simp only [hx, Option.isSome_some, if_pos]
    exact ⟨List.length_eraseIdx_add_one hlt, trivial⟩

/-- `set_scheduled` keeps the ready queue. -/
theorem set_scheduled_queue (s : Scheduler) (o : Option ProcessRecord) :
    ((s.set_scheduled o)).queue = s.queue := by
  cases o <;> rfl

/-- `set_scheduled` fills the current slot iff given a record. -/
theorem set_scheduled_isSome (s : Scheduler) (o : Option ProcessRecord) :
    ((s.set_scheduled o)).scheduled.isSome = o.isSome := by
  cases o <;> rfl

/-- `set_scheduled` keeps the feedback flag. -/
theorem set_scheduled_feedback (s : Scheduler) (o : Option ProcessRecord) :
    ((s.set_scheduled o)).feedback = s.feedback := by
  cases o <;> rfl

/-- A non-feedback admission grows the resident population by exactly one. -/
theorem schedule_inner_size (s : Scheduler) (r : ProcessRecord)
    (hfb : s.feedback = false) :
    sizeInside ((s.schedule_inner r).1) = sizeInside s + 1 := by
  unfold Scheduler.schedule_inner
  cases hs : s.scheduled with
  | none => simp [sizeInside, Scheduler.set_scheduled_record, hs]
  | some cur =>
    simp only []
    split_ifs with h1 h2
    · rw [hfb] at h2; cases h2
    · simp [sizeInside, Scheduler.set_scheduled_record, hs]
    · simp [sizeInside, hs]

/-- Admission keeps the feedback flag. -/
theorem schedule_inner_feedback (s : Scheduler) (r : ProcessRecord) :
    ((s.schedule_inner r).1).feedback = s.feedback := by
  unfold Scheduler.schedule_inner
  cases hs : s.scheduled with
  | none => rfl
  | some cur =>
    simp only []
    split_ifs <;> rfl

/-- On a non-feedback scheduler the retirement step removes exactly the
record it retires (current with `time_units = 0`) and nothing else. -/
theorem fetch_size (s : Scheduler) (hfb : s.feedback = false) :
    sizeInside ((s.fetch_current).1) +
      (match s.scheduled with
       | some c => if c.proc.time_units = 0 then 1 else 0
       | none => 0) = sizeInside s := by
  unfold Scheduler.fetch_current
  cases hs : s.scheduled with
  | none => simp
  | some cur =>
    simp only []
    by_cases h1 : cur.proc.time_units = 0
    · rw [if_pos h1]
      simp only [h1, if_pos]
      obtain ⟨hq, hsc⟩ := next_size s
      cases hpol : ((s.next).1).policy <;>
        simp only [] <;>
        rw [sizeInside, set_scheduled_queue, set_scheduled_isSome] <;>
        simp only [sizeInside, hs, Option.isSome_some, if_true] <;>
        omega
    · rw [if_neg h1]
      simp only [h1, if_false]
      cases hpol : s.policy with
      | FirstComeFirstServe => simp [sizeInside, hs]
      | Priority => simp [sizeInside, hs]
      | PreemptivePriority => simp [sizeInside, hs]
      | ShortestRemainingTime a => simp [sizeInside, hs]
      | RoundRobin q =>
        simp only []
        by_cases h2 : cur.lifetime ≤ 0
        · rw [if_pos h2]
          have hfb2 : ((({ s with
              scheduled := none, policy := .RoundRobin q } : Scheduler).next.1
              ).set_scheduled ({ s with
              scheduled := none, policy := .RoundRobin q } : Scheduler
              ).next.2).feedback = false := by
            rw [set_scheduled_feedback]
            exact (next_fields { s with
              scheduled := none, policy := .RoundRobin q }).2.2.2.1.trans hfb
          rw [if_neg (by rw [hfb2]; exact Bool.false_ne_true)]
          simp only []
          rw [schedule_inner_size _ _ hfb2]
          have hq2 := (next_size { s with
            scheduled := none, policy := .RoundRobin q }).1
          rw [sizeInside, set_scheduled_queue, set_scheduled_isSome]
          simp only [sizeInside, hs, Option.isSome_some, if_true]
          simp only [] at hq2
          omega
        · rw [if_neg h2]
          simp [sizeInside, hs]

/-- Ticking in place does not change the resident population. -/
theorem tickCurrent_size (s : Scheduler) (n : Nat) :
    sizeInside (s.tickCurrent n) = sizeInside ((s.fetch_current).1) := by
  unfold Scheduler.tickCurrent
  cases h : ((s.fetch_current).1).scheduled <;> simp [sizeInside, h]

/-- The retirement step keeps the feedback flag. -/
theorem fetch_feedback (s : Scheduler) :
    ((s.fetch_current).1).feedback = s.feedback := by
  unfold Scheduler.fetch_current
  cases hs : s.scheduled with
  | none => rfl
  | some cur =>
    simp only []
    by_cases h1 : cur.proc.time_units = 0
    · rw [if_pos h1]
      cases hpol : ((s.next).1).policy <;> simp only [] <;>
        rw [set_scheduled_feedback] <;>
        exact (next_fields s).2.2.2.1
    · rw [if_neg h1]
      cases hpol : s.policy with
      | FirstComeFirstServe => rfl
      | Priority => rfl
      | PreemptivePriority => rfl
      | ShortestRemainingTime a => rfl
      | RoundRobin q =>
        simp only []
        by_cases h2 : cur.lifetime ≤ 0
        · rw [if_pos h2]
          have hfb2 : ((({ s with
              scheduled := none, policy := .RoundRobin q } : Scheduler).next.1
              ).set_scheduled ({ s with
              scheduled := none, policy := .RoundRobin q } : Scheduler
              ).next.2).feedback = s.feedback := by
            rw [set_scheduled_feedback]
            exact (next_fields { s with
              scheduled := none, policy := .RoundRobin q }).2.2.2.1
          split_ifs with h3
          · simpa using hfb2
          · simp only []
            rw [schedule_inner_feedback]
            exact hfb2
        · rw [if_neg h2]
  
/-- Ticking keeps the feedback flag. -/
theorem tickCurrent_feedback (s : Scheduler) (n : Nat) :
    (s.tickCurrent n).feedback = s.feedback := by
  unfold Scheduler.tickCurrent
  cases h : ((s.fetch_current).1).scheduled <;>
    simp [h, fetch_feedback]

/-- Every driver operation keeps the feedback flag. -/
theorem step_feedback (s : Scheduler) (op : SchedOp) :
    (s.step op).feedback = s.feedback := by
  cases op with
  | arrive p => exact schedule_inner_feedback _ _
  | tick n => exact tickCurrent_feedback s n
  | read => exact fetch_feedback s

/-- Per-step conservation: population change = admissions − retirements. -/
theorem step_size (s : Scheduler) (op : SchedOp) (hfb : s.feedback = false) :
    sizeInside (s.step op) + retireWeight s op =
      sizeInside s + arriveWeight op := by
  cases op with
  | arrive p =>
    simp only [Scheduler.step, retireWeight, arriveWeight, Scheduler.schedule]
    rw [schedule_inner_size _ _ hfb]
  | tick n =>
    simp only [Scheduler.step, retireWeight, arriveWeight]
    rw [tickCurrent_size]
    have := fetch_size s hfb
    omega
  | read =>
    simp only [Scheduler.step, retireWeight, arriveWeight]
    have := fetch_size s hfb
    omega

/-- Trace conservation: final population + retirements = initial population
+ admissions, on a non-feedback scheduler. -/
theorem run_size (s : Scheduler) (ops : List SchedOp)
    (hfb : s.feedback = false) :
    sizeInside (s.run ops) + countRetired s ops =
      sizeInside s + arriveCount ops := by
  induction ops generalizing s with
  | nil => simp [Scheduler.run, countRetired, arriveCount]
  | cons op rest ih =>
    have hfb2 : (s.step op).feedback = false := (step_feedback s op).trans hfb
    have h1 := step_size s op hfb
    have h2 := ih (s.step op) hfb2
    have h3 : arriveCount (op :: rest) = arriveWeight op + arriveCount rest := by
      cases op <;> simp [arriveCount, arriveWeight]
    rw [Scheduler.run, countRetired, h3]
    omega

/-- C8 (amended): for every finite trace of admissions, ticks and reads on a
(non-feedback) Scheduler that leaves it empty — no current record and an
empty ready set — the number of admissions equals the number of records that
transitioned out of "current" with zero remaining `time_units`. -/
theorem process_conservation (policy : SchedulerAlgorithm)
    (ops : List SchedOp)
    (hsched : ((Scheduler.new policy).run ops).scheduled = none)
    (hqueue : ((Scheduler.new policy).run ops).queue = []) :
    arriveCount ops = countRetired (Scheduler.new policy) ops := by
  have h := run_size (Scheduler.new policy) ops rfl
  have h0 : sizeInside (Scheduler.new policy) = 0 := rfl
  rw [h0] at h
  simp only [sizeInside, hsched, hqueue, List.length_nil, Option.isSome_none,
    Bool.false_eq_true, if_false, Nat.zero_add, Nat.add_zero] at h
  omega

/-- Witness for C8's amended claim on the duplicate-id trace. -/
theorem process_conservation_witness :
    arriveCount c8ops =
      countRetired (Scheduler.new .FirstComeFirstServe) c8ops :=
  process_conservation .FirstComeFirstServe c8ops (by decide) (by decide)

/-! ### C10: cross-level handoff passes only the Process -/

/-- Seeding writes the default only when the key is absent. -/
theorem tblLookup_tblSeed_self (t : List (Nat × ℚ)) (k : Nat) (v : ℚ) :
    tblLookup (tblSeed t k v) k = some ((tblLookup t k).getD v) := by
  unfold tblSeed
  cases h : tblLookup t k with
  | none => simp [h, tblLookup]
  | some w => simp [h]

/-- Seeding leaves every other key untouched. -/
theorem tblLookup_tblSeed_ne (t : List (Nat × ℚ)) (k k' : Nat) (v : ℚ)
    (h : k' ≠ k) :
    tblLookup (tblSeed t k v) k' = tblLookup t k' := by
  unfold tblSeed
  cases hk : tblLookup t k with
  | none => simp [tblLookup, h.symm, Ne.symm h]
  | some w => simp

/-- The only table change an admission makes is seeding the arriving id with
the global default prediction. -/
theorem schedule_inner_table (s : Scheduler) (r : ProcessRecord) :
    ((s.schedule_inner r).1).srt_time_table =
      tblSeed s.srt_time_table r.proc.id INITIAL_TAU := by
  unfold Scheduler.schedule_inner
  cases hs : s.scheduled with
  | none => rfl
  | some cur =>
    simp only []
    split_ifs <;> rfl


/-- C10: whenever a record is handed between MultilevelQueue levels, only the
inner `Process` is passed to the target level, and the target reinitializes
all scheduling metadata from its own state, in every branch of the target's
admission: (1) idle target — the installed record's `proc` equals the handed
record's `proc` exactly, `schedule_time` comes from the target's clock, τ
from the target's own (default-seeded) table, lifetime from the target's
quantum; (2) busy target, preempting — the same fresh metadata is installed;
(3) busy target, non-preempting (the queue-append branch) — the appended
record carries the target's clock stamp, lifetime 0 and the global default τ,
never any source-level value, and the target's clock advances; (4) the only
table change on any admission is seeding the arriving id with the default
10.0, so prediction tables are never shared or transferred between levels;
(5) the demotion pass of `current_with_key` hands exactly `bumped.proc` to
the next level's `schedule`, with no idleness assumption on that level; and
(6) each displacement step of the `schedule` cascade likewise forwards only
`inner.proc` to the next level. -/
theorem multilevel_handoff_frame :
    (∀ (t : Scheduler) (b : ProcessRecord), t.scheduled = none →
      ∃ rec : ProcessRecord,
        (t.schedule b.proc).1 =
          { t with
            scheduled := some rec,
            srt_time_table :=
              tblSeed t.srt_time_table b.proc.id INITIAL_TAU } ∧
        rec.proc = b.proc ∧
        rec.schedule_time = t.clock ∧
        rec.estimated_remaining_time =
          (tblLookup (tblSeed t.srt_time_table b.proc.id INITIAL_TAU)
            b.proc.id).getD 0 ∧
        (∀ q, t.policy = .RoundRobin q → rec.lifetime = (q : Int)) ∧
        ((∀ q, t.policy ≠ .RoundRobin q) → rec.lifetime = 0)) ∧
    (∀ (t : Scheduler) (cur b : ProcessRecord), t.scheduled = some cur →
      ({ t with
         scheduled := some cur,
         srt_time_table :=
           tblSeed t.srt_time_table b.proc.id INITIAL_TAU } : Scheduler
        ).preempts cur
        { schedule_time := t.clock, lifetime := 0,
          estimated_remaining_time := INITIAL_TAU, proc := b.proc } →
      ((t.schedule b.proc).1).scheduled = some
        { schedule_time := t.clock, lifetime := 0,
          estimated_remaining_time :=
            (tblLookup (tblSeed t.srt_time_table b.proc.id INITIAL_TAU)
              b.proc.id).getD 0,
          proc := b.proc } ∧
      ((t.schedule b.proc).1).clock = t.clock ∧
      (t.feedback = true → (t.schedule b.proc).2 = some cur ∧
        ((t.schedule b.proc).1).queue = t.queue) ∧
      (t.feedback = false → (t.schedule b.proc).2 = none ∧
        ((t.schedule b.proc).1).queue = t.queue ++ [cur])) ∧
    (∀ (t : Scheduler) (cur b : ProcessRecord), t.scheduled = some cur →
      ¬ ({ t with
           scheduled := some cur,
           srt_time_table :=
             tblSeed t.srt_time_table b.proc.id INITIAL_TAU } : Scheduler
          ).preempts cur
          { schedule_time := t.clock, lifetime := 0,
            estimated_remaining_time := INITIAL_TAU, proc := b.proc } →
      ((t.schedule b.proc).1).scheduled = some cur ∧
      ((t.schedule b.proc).1).queue = t.queue ++
        [{ schedule_time := t.clock, lifetime := 0,
           estimated_remaining_time := INITIAL_TAU, proc := b.proc }] ∧
      ((t.schedule b.proc).1).clock = t.clock + 1 ∧
      (t.schedule b.proc).2 = none) ∧
    (∀ (t : Scheduler) (p : Process),
      ((t.schedule p).1).srt_time_table =
        tblSeed t.srt_time_table p.id INITIAL_TAU) ∧
    (∀ (lv : List Scheduler) (i : Nat) (src tgt : Scheduler)
        (b : ProcessRecord),
      lv.get? i = some src → (src.fetch_current).2 = some b →
      i < lv.length - 1 → lv.get? (i + 1) = some tgt →
      MultilevelQueue.advanceLevel lv i =
        (lv.set i ((src.fetch_current).1)).set (i + 1)
          ((tgt.schedule b.proc).1)) ∧
    (∀ (fuel point : Nat) (lv : List Scheduler) (p : Process)
        (sch : Scheduler) (inner : ProcessRecord),
      lv.get? point = some sch → (sch.schedule p).2 = some inner →
      MultilevelQueue.scheduleGo (fuel + 1) lv point p =
        MultilevelQueue.scheduleGo fuel (lv.set point ((sch.schedule p).1))
          (if point ≠ (lv.set point ((sch.schedule p).1)).length - 1
           then point + 1 else point) inner.proc) := by
  refine ⟨?_, ?_, ?_, ?_, ?_, ?_⟩
  · intro t b htsched
    obtain ⟨rec, hsch, hproc, hst, hest, hrr, hnrr⟩ :=
      set_scheduled_record_shape
        { t with
          scheduled := none,
          srt_time_table := tblSeed t.srt_time_table b.proc.id INITIAL_TAU }
        { schedule_time := t.clock, lifetime := 0,
          estimated_remaining_time := INITIAL_TAU, proc := b.proc }
    refine ⟨rec, ?_, hproc, hst, hest, hrr, hnrr⟩
    simp only [Scheduler.schedule, Scheduler.schedule_inner, htsched]
    rw [show ∀ s' : Scheduler, ∀ r', s'.set_scheduled_record r' =
        { s' with scheduled := (s'.set_scheduled_record r').scheduled }
      from fun _ _ => rfl]
    rw [hsch]
  · intro t cur b hcur hpre
    have hpol := preempts_policy _ _ _ hpre
    simp only [Scheduler.schedule, Scheduler.schedule_inner, hcur]
    rw [if_pos hpre]
    rcases hpol with ⟨hp, -⟩ | ⟨a, hp, -⟩ <;> simp only [] at hp <;>
      cases hf : t.feedback <;>
      simp [Scheduler.set_scheduled_record, hp, hf]
  · intro t cur b hcur hpre
    simp only [Scheduler.schedule, Scheduler.schedule_inner, hcur]
    rw [if_neg hpre]
    simp
  · intro t p
    exact schedule_inner_table t _
  · intro lv i src tgt b hsrc hbump hi htgt
    have hil1 : i + 1 < lv.length := by omega
    unfold MultilevelQueue.advanceLevel
    rw [hsrc]
    simp only [hbump, List.length_set]
    rw [if_pos hi]
    have h2 : (lv.set i (src.fetch_current).1).get? (i + 1) = some tgt := by
      rw [List.get?_set_ne _ _ (by omega)]
      exact htgt
    rw [h2]
  · intro fuel point lv p sch inner hpt hinner
    rw [MultilevelQueue.scheduleGo, hpt]
    simp only [hinner]

/-- The RR(2)/RR(4)/FCFS queue of the repo's preemptive test at the moment
process B's (id 1) quantum has just expired at level 0 while process A
(id 0) is still current at level 1 — the busy-target demotion moment. -/
def c10lv : List Scheduler :=
  ((((c1m0.schedule (Process.full 0 6 .Inert)).tickCurrent 2).schedule
    (Process.full 1 6 .Inert)).tickCurrent 2).levels

/-- Level 0 of `c10lv`: B current with its quantum exhausted. -/
def c10src : Scheduler :=
  { scheduled := some
      { schedule_time := 0, lifetime := 0, estimated_remaining_time := 8,
        proc := { id := 1, priority := 0, time_units := 4,
                  static_time_units := 6, code := .Inert, affinity := -1 } },
    queue := [], feedback := true, policy := .RoundRobin 2, clock := 1,
    srt_time_table := [(1, 10), (0, 10)] }

/-- Level 1 of `c10lv`: a busy RR(4) level, A current mid-quantum. -/
def c10tgt : Scheduler :=
  { scheduled := some
      { schedule_time := 0, lifetime := 4, estimated_remaining_time := 10,
        proc := { id := 0, priority := 0, time_units := 4,
                  static_time_units := 6, code := .Inert, affinity := -1 } },
    queue := [], feedback := true, policy := .RoundRobin 4, clock := 0,
    srt_time_table := [(0, 10)] }

/-- The record current in `c10tgt` (process A). -/
def c10cur : ProcessRecord :=
  { schedule_time := 0, lifetime := 4, estimated_remaining_time := 10,
    proc := { id := 0, priority := 0, time_units := 4,
              static_time_units := 6, code := .Inert, affinity := -1 } }

/-- The record level 0 bumps (process B). -/
def c10b : ProcessRecord :=
  { schedule_time := 0, lifetime := 0, estimated_remaining_time := 8,
    proc := { id := 1, priority := 0, time_units := 4,
              static_time_units := 6, code := .Inert, affinity := -1 } }

/-- A feedback PreemptivePriority level with a priority-0 process current,
for exercising the displacement cascade. -/
def c10pp : Scheduler :=
  (((Scheduler.new .PreemptivePriority).with_feedback).schedule
    (Process.full 2 5 .Inert)).1

/-- A two-level queue whose top level is `c10pp`. -/
def c10plv : List Scheduler :=
  [c10pp, (Scheduler.new .FirstComeFirstServe).with_feedback]

/-- The record `c10pp` displaces when a more urgent process arrives. -/
def c10inner : ProcessRecord :=
  { schedule_time := 0, lifetime := 0, estimated_remaining_time := 10,
    proc := Process.full 2 5 .Inert }

/-- A priority −5 process whose admission displaces `c10inner`. -/
def c10q : Process := (Process.full 3 5 .Inert).with_prioirty (-5)

/-- Witness for C10: the busy-target demotion of process B into level 1
(B appended to the busy level's ready set with the target's clock stamp,
lifetime 0 and default τ; A stays current; the target clock advances), plus
one displacement step of the cascade forwarding only the inner process. -/
theorem multilevel_handoff_frame_witness :
    (MultilevelQueue.advanceLevel c10lv 0 =
      (c10lv.set 0 ((c10src.fetch_current).1)).set (0 + 1)
        ((c10tgt.schedule c10b.proc).1)) ∧
    ((c10tgt.schedule c10b.proc).1).scheduled = some c10cur ∧
    ((c10tgt.schedule c10b.proc).1).queue = c10tgt.queue ++
      [{ schedule_time := c10tgt.clock, lifetime := 0,
         estimated_remaining_time := INITIAL_TAU, proc := c10b.proc }] ∧
    ((c10tgt.schedule c10b.proc).1).clock = c10tgt.clock + 1 ∧
    (c10tgt.schedule c10b.proc).2 = none ∧
    (MultilevelQueue.scheduleGo 2 c10plv 0 c10q =
      MultilevelQueue.scheduleGo 1 (c10plv.set 0 ((c10pp.schedule c10q).1))
        (if 0 ≠ (c10plv.set 0 ((c10pp.schedule c10q).1)).length - 1
         then 0 + 1 else 0) c10inner.proc) :=
  have h3 := multilevel_handoff_frame.2.2.1 c10tgt c10cur c10b
    (by decide) (by decide)
  have h5 := multilevel_handoff_frame.2.2.2.2.1 c10lv 0 c10src c10tgt c10b
    (by decide) (by decide) (by decide) (by decide)
  have h6 := multilevel_handoff_frame.2.2.2.2.2 1 0 c10plv c10q c10pp
    c10inner (by decide) (by decide)
  ⟨h5, h3.1, h3.2.1, h3.2.2.1, h3.2.2.2, h6⟩
